import Mathlib

/-!
Verification development for the `wsl.parse` module (file `python/wsl/parse.py`):
parsing the rows of a WSL database given schema information.

The Python source is shallowly embedded: byte strings (`bytes`) become
`List Nat` (each element one byte value), raised exceptions become the
`Except Err` monad, and Python's implicit `return None` fall-through in
`parse_string` is modelled by the value `Except.ok none`.  Python 3
semantics are modelled exactly where they matter:

* indexing a `bytes` object yields an `int`, so `hexconvert`'s `ord(c)`
  raises `TypeError` when it receives such a byte (modelled via `PyVal`);
* `line[i+1] == 'x'` compares an `int` with a `str`, which is `False`;
* an out-of-range index raises `IndexError`;
* `bytes.decode('utf-8')` is strict, so the diagnostics helper `u`
  raises on invalid UTF-8 while building an error message.

The schema grammar (`wsl.schema.parse_schema`) and the datatype registry
(`wsl.schema.make_datatypes_of_relation`, `wsl.datatype`) are external
collaborators of this module; they appear as parameters.
-/

namespace Wsl

/-- The distinct failure conditions of the module.  The Python source raises
`Exception` with a format-string message; each constructor corresponds to one
`raise` site (carrying the raw data the message is built from), or to a
built-in Python exception (`TypeError`, `IndexError`, `KeyError`,
`AssertionError`).  `notUtf8` is the exception raised by the diagnostics
helper `u` when the bytes to display are not valid UTF-8. -/
inductive Err where
  | notUtf8 (bin : List Nat)
  | atomError (i : Nat) (line : List Nat)
  | didNotFindString (i : Nat) (line : List Nat)
  | failedEscape (i : Nat) (line : List Nat)
  | failedHex (i : Nat) (line : List Nat)
  | failedConvertEscape (i : Nat) (line : List Nat)
  | failedStringLiteral (i : Nat) (line : List Nat)
  | expectedSpace (line : List Nat) (i : Nat)
  | expectedEol (i : Nat) (line : List Nat)
  | noSuchTable (relation : List Nat) (line : List Nat)
  | typeError
  | indexError
  | keyError
  | assertionError
deriving DecidableEq

/-- A dynamically typed Python value, as needed to model `hexconvert` being
applied to the result of indexing a `bytes` object (an `int` in Python 3)
and the comparison `line[i+1] == 'x'` (an `int` compared with a `str`). -/
inductive PyVal where
  | int (n : Nat)
  | str (s : List Nat)
deriving DecidableEq

/-- Python's `ord`: accepts a string of length one, raises `TypeError` on
anything else (in particular on an `int`). -/
def pyOrd : PyVal → Except Err Nat
  | PyVal.str [c] => .ok c
  | _ => .error Err.typeError

/-- Python's `==` across `int` and `str`: values of different types are
never equal. -/
def pyEq : PyVal → PyVal → Bool
  | PyVal.int a, PyVal.int b => a == b
  | PyVal.str a, PyVal.str b => a == b
  | _, _ => false

/-- Source `hexconvert(c)` (parse.py lines 18-24): `x = ord(c)`, digits
`0-9` map to 0..9, lowercase `a-f` map to 10..15, anything else gives
`None`.  When `c` is an `int` (as at the call sites in `parse_string`),
`ord` raises `TypeError` before any comparison happens. -/
def hexconvert (c : PyVal) : Except Err (Option Nat) :=
  match pyOrd c with
  | .error e => .error e
  | .ok x =>
    if 48 ≤ x ∧ x < 58 then .ok (some (x - 48))
    else if 97 ≤ x ∧ x < 103 then .ok (some (10 + x - 97))
    else .ok none

/-- A UTF-8 continuation byte (`0x80`..`0xbf`). -/
def utf8Cont (c : Nat) : Bool := decide (0x80 ≤ c ∧ c ≤ 0xbf)

/-- Strict UTF-8 validity, as checked by Python's `bytes.decode('utf-8')`:
rejects overlong encodings, surrogates and values above `U+10FFFF`
(RFC 3629 table). -/
def utf8Valid : List Nat → Bool
  | [] => true
  | b :: rest =>
    if b < 0x80 then utf8Valid rest
    else if 0xc2 ≤ b ∧ b ≤ 0xdf then
      match rest with
      | c1 :: r => utf8Cont c1 && utf8Valid r
      | [] => false
    else if b = 0xe0 then
      match rest with
      | c1 :: c2 :: r => decide (0xa0 ≤ c1 ∧ c1 ≤ 0xbf) && utf8Cont c2 && utf8Valid r
      | _ => false
    else if 0xe1 ≤ b ∧ b ≤ 0xec then
      match rest with
      | c1 :: c2 :: r => utf8Cont c1 && utf8Cont c2 && utf8Valid r
      | _ => false
    else if b = 0xed then
      match rest with
      | c1 :: c2 :: r => decide (0x80 ≤ c1 ∧ c1 ≤ 0x9f) && utf8Cont c2 && utf8Valid r
      | _ => false
    else if 0xee ≤ b ∧ b ≤ 0xef then
      match rest with
      | c1 :: c2 :: r => utf8Cont c1 && utf8Cont c2 && utf8Valid r
      | _ => false
    else if b = 0xf0 then
      match rest with
      | c1 :: c2 :: c3 :: r => decide (0x90 ≤ c1 ∧ c1 ≤ 0xbf) && utf8Cont c2 && utf8Cont c3 && utf8Valid r
      | _ => false
    else if 0xf1 ≤ b ∧ b ≤ 0xf3 then
      match rest with
      | c1 :: c2 :: c3 :: r => utf8Cont c1 && utf8Cont c2 && utf8Cont c3 && utf8Valid r
      | _ => false
    else if b = 0xf4 then
      match rest with
      | c1 :: c2 :: c3 :: r => decide (0x80 ≤ c1 ∧ c1 ≤ 0x8f) && utf8Cont c2 && utf8Cont c3 && utf8Valid r
      | _ => false
    else false

/-- Source `u(bin)` (parse.py lines 8-13): strict UTF-8 decode of `bin` for
display in an error message; on failure it raises its own exception
(`Not valid UTF-8: ...`).  A decoded `str` re-encodes to the same bytes,
so the successful result is modelled by the bytes themselves. -/
def u (bin : List Nat) : Except Err (List Nat) :=
  if utf8Valid bin then .ok bin else .error (Err.notUtf8 bin)

/-- A `raise Exception('... %s ...' % (u(line)))` site: Python first
formats the message, evaluating `u line`; if that raises, its exception
propagates instead of the intended one `e`. -/
def uRaise {A : Type} (bin : List Nat) (e : Err) : Except Err A :=
  match u bin with
  | .error e2 => .error e2
  | .ok _ => .error e

/-- Source class `Ahead` (parse.py lines 26-42): a one-slot pushback wrapper
over a line iterator.  `x` is the slot (`self.x`, `None` when empty) and
`rest` the lines still to be produced by the underlying iterator.
(The constructor's `hasattr` assertion and the write to the never-read
attribute `hasx` have no observable effect and are not modelled.) -/
structure Ahead where
  x : Option (List Nat)
  rest : List (List Nat)
deriving DecidableEq

/-- `Ahead.__next__`: return the buffered line if the slot is occupied
(clearing it), else pull from the underlying iterator; `none` models the
`StopIteration` end-of-input signal. -/
def Ahead.next : Ahead → Option (List Nat × Ahead)
  | ⟨some l, rest⟩ => some (l, ⟨none, rest⟩)
  | ⟨none, l :: rest⟩ => some (l, ⟨none, rest⟩)
  | ⟨none, []⟩ => none

/-- `Ahead.unget(x)`: `assert self.x is None; self.x = x`.  Calling it while
a line is buffered is the assertion failure. -/
def Ahead.unget (a : Ahead) (l : List Nat) : Except Err Ahead :=
  match a.x with
  | some _ => .error Err.assertionError
  | none => .ok ⟨some l, a.rest⟩

/-- A fresh `Ahead` over a line iterator, as built by `parse_db`. -/
def mkAhead (lines : List (List Nat)) : Ahead := ⟨none, lines⟩

/-- The sequence of lines a `for` loop over the `Ahead` observes: the
buffered line first (`__next__` drains the slot), then the iterator. -/
def aheadList (a : Ahead) : List (List Nat) :=
  match a.x with
  | some l => l :: a.rest
  | none => a.rest

/-- The byte set of Python's no-argument `bytes.strip()`: ASCII whitespace. -/
def wsB (b : Nat) : Bool :=
  b == 32 || b == 9 || b == 10 || b == 13 || b == 11 || b == 12

/-- The byte set of `lstrip(b'% ')`: percent and space. -/
def pmB (b : Nat) : Bool := b == 37 || b == 32

/-- Remove trailing bytes satisfying `p` (right half of `bytes.strip()`). -/
def rstripWith (p : Nat → Bool) (l : List Nat) : List Nat :=
  (l.reverse.dropWhile p).reverse

/-- Python `line.strip()` on bytes: drop leading and trailing ASCII
whitespace. -/
def strip (l : List Nat) : List Nat :=
  rstripWith wsB (l.dropWhile wsB)

/-- The loop of `split_header` (parse.py lines 60-67), expressed over the
sequence of lines the `Ahead` will yield.  Returns the collected
`schlines` (each already `strip()`ped and `lstrip(b'% ')`ped), the line
pushed back by `unget` (if the loop ended with `break`), and the lines the
loop never consumed.  The `unget` at the `break` always finds an empty
slot (the slot was cleared by the `__next__` that produced the line), so
its assertion cannot fire here. -/
def split_header_lines : List (List Nat) → List (List Nat) × Option (List Nat) × List (List Nat)
  | [] => ([], none, [])
  | l :: ls =>
    let s := strip l
    if s = [] then split_header_lines ls
    else if s.head? = some 37 then
      let r := split_header_lines ls
      (s.dropWhile pmB :: r.1, r.2)
    else ([], some s, ls)

/-- `b''.join(l + b'\n' for l in schlines)` (parse.py line 68). -/
def joinNl : List (List Nat) → List Nat
  | [] => []
  | p :: ps => p ++ 10 :: joinNl ps

/-- Source `split_header(ahead)` (parse.py lines 44-69): consume the
leading `%` header lines, returning the header bytes and the state the
`Ahead` buffer is left in. -/
def split_header (a : Ahead) : List Nat × Ahead :=
  let r := split_header_lines (aheadList a)
  (joinNl r.1, ⟨r.2.1, r.2.2⟩)

/-- Source `parse_atom(line, i)` (parse.py lines 71-91): scan forward from
`i` while bytes satisfy `byte > 0x20 and byte != 0x7f`; fail if no byte
matched, else return the matched slice and the next offset.  The `while`
loop is expressed with `takeWhile` on the suffix `line.drop i`. -/
def parse_atom (line : List Nat) (i : Nat) : Except Err (List Nat × Nat) :=
  let tok := (line.drop i).takeWhile (fun c => decide (0x20 < c ∧ c ≠ 0x7f))
  if tok = [] then uRaise line (Err.atomError i line)
  else .ok (tok, i + tok.length)

/-- The escape dictionary `m` of `parse_string` (parse.py line 118):
`\"`, `\\`, `\n`, `\r`, `\t`. -/
def escMap (c : Nat) : Option Nat :=
  if c = 0x22 then some 0x22
  else if c = 0x5c then some 0x5c
  else if c = 0x6e then some 0x0a
  else if c = 0x72 then some 0x0d
  else if c = 0x74 then some 0x09
  else none

/-- The `while i < end` loop of `parse_string` (parse.py lines 112-135).
The first list argument is the suffix `line.drop i`; `i` is the current
byte offset and `s` the decoded bytes so far.  When the loop exhausts the
line without having returned, the Python function falls off its end and
returns `None`: that is the `.ok none` result.  `hexconvert` is applied to
`line[i+2]` and `line[i+3]`, which are `int`s, exactly as in the source;
a too-short list where the source would evaluate `line[i+2]` or
`line[i+3]` out of range is the `IndexError` case. -/
def parse_string_loop (line : List Nat) : List Nat → Nat → List Nat → Except Err (Option (List Nat × Nat))
  | [], _, _ => .ok none
  | c :: rest, i, s =>
    if c = 0x22 then .ok (some (s, i + 1))
    else if c = 0x5c then
      match rest with
      | [] => uRaise line (Err.failedEscape i line)
      | c1 :: rest2 =>
        if pyEq (PyVal.int c1) (PyVal.str [0x78]) = true ∧ line.length - i < 4 then
          uRaise line (Err.failedEscape i line)
        else
          match escMap c1 with
          | some b => parse_string_loop line rest2 (i + 2) (s ++ [b])
          | none =>
            if c1 = 0x78 then
              match rest2 with
              | [] => .error Err.indexError
              | c2 :: rest3 =>
                match hexconvert (PyVal.int c2) with
                | .error e => .error e
                | .ok hi =>
                  match rest3 with
                  | [] => .error Err.indexError
                  | c3 :: rest4 =>
                    match hexconvert (PyVal.int c3) with
                    | .error e => .error e
                    | .ok lo =>
                      if hi = none ∨ lo = none then uRaise line (Err.failedHex i line)
                      else parse_string_loop line rest4 (i + 4) (s ++ [hi.getD 0 * 16 + lo.getD 0])
            else uRaise line (Err.failedConvertEscape i line)
    else if 0x20 ≤ c ∧ c ≠ 0x7f then parse_string_loop line rest (i + 1) (s ++ [c])
    else uRaise line (Err.failedStringLiteral i line)

/-- Source `parse_string(line, i)` (parse.py lines 93-135): require a `"`
at `i`, then run the scanning loop from `i+1`.  A successful parse yields
`some (decoded bytes, next offset)`; `.ok none` is the silent `None`
fall-through on an unterminated literal. -/
def parse_string (line : List Nat) (i : Nat) : Except Err (Option (List Nat × Nat)) :=
  if i = line.length then uRaise line (Err.didNotFindString i line)
  else
    match line.get? i with
    | none => .error Err.indexError
    | some c =>
      if c ≠ 0x22 then uRaise line (Err.didNotFindString i line)
      else parse_string_loop line (line.drop (i + 1)) (i + 1) []

/-- Source `parse_space(line, i)` (parse.py lines 137-153): require exactly
one `0x20` byte at `i`; return `i+1`.  When `i` is beyond the end, the
condition `line[i] != 0x20` itself raises `IndexError`. -/
def parse_space (line : List Nat) (i : Nat) : Except Err Nat :=
  if i = line.length then uRaise line (Err.expectedSpace line i)
  else
    match line.get? i with
    | none => .error Err.indexError
    | some c =>
      if c ≠ 0x20 then uRaise line (Err.expectedSpace line i)
      else .ok (i + 1)

/-- The two lexical syntax kinds a datatype can declare
(`wsl.datatype.SYNTAX_ATOM` / `SYNTAX_STRING`); external to this module. -/
inductive SynKind where
  | atom
  | string
deriving DecidableEq

/-- An external column datatype: its lexical kind (source attribute name:
`syntaxtype`) and its `decode` function from raw token bytes to a value,
which may raise. -/
structure Datatype (V : Type) where
  stype : SynKind
  decode : List Nat → Except Err V

/-- The `for dt in datatypes` loop of `parse_values` (parse.py lines
158-167): one space, one token per the datatype's syntax kind, one decode,
per column.  Returns the decoded values and the offset after the last
token.  Unpacking `parse_string`'s `None` fall-through result in
`s, i = parse_string(line, i)` is a `TypeError`. -/
def parse_values_loop {V : Type} (line : List Nat) : Nat → List (Datatype V) → Except Err (List V × Nat)
  | i, [] => .ok ([], i)
  | i, dt :: dts =>
    match parse_space line i with
    | .error e => .error e
    | .ok i2 =>
      let sr : Except Err (List Nat × Nat) :=
        match dt.stype with
        | SynKind.atom => parse_atom line i2
        | SynKind.string =>
          match parse_string line i2 with
          | .error e => .error e
          | .ok none => .error Err.typeError
          | .ok (some q) => .ok q
      match sr with
      | .error e => .error e
      | .ok (st, i3) =>
        match dt.decode st with
        | .error e => .error e
        | .ok val =>
          match parse_values_loop line i3 dts with
          | .error e => .error e
          | .ok (vs, j) => .ok (val :: vs, j)

/-- Source `parse_values(line, i, datatypes)` (parse.py lines 155-170):
run the per-column loop, then require `i == end`. -/
def parse_values {V : Type} (line : List Nat) (i : Nat) (dts : List (Datatype V)) : Except Err (List V) :=
  match parse_values_loop line i dts with
  | .error e => .error e
  | .ok (vs, j) =>
    if j ≠ line.length then uRaise line (Err.expectedEol j line)
    else .ok vs

/-- Python `dict.get` on a relation-keyed dict, modelled as an association
list (keys unique in every dict this module builds). -/
def dictGet {A : Type} : List (List Nat × A) → List Nat → Option A
  | [], _ => none
  | (k, v) :: d, r => if k = r then some v else dictGet d r

/-- Python `d[k] = v`: replace in place if the key is present, else append
(insertion order preserved, as of Python 3.7 dicts). -/
def dictSet {A : Type} : List (List Nat × A) → List Nat → A → List (List Nat × A)
  | [], k, v => [(k, v)]
  | (k2, v2) :: d, k, v => if k2 = k then (k, v) :: d else (k2, v2) :: dictSet d k v

/-- Source `parse_row(line, datatypes_of_relation)` (parse.py lines
172-195): lex the relation atom at offset 0, look it up, and delegate the
rest of the line to `parse_values`.  The unknown-relation message formats
`u(relation)` then `u(line)`, either of which can raise first. -/
def parse_row {V : Type} (line : List Nat) (dtr : List (List Nat × List (Datatype V))) :
    Except Err (List Nat × List V) :=
  match parse_atom line 0 with
  | .error e => .error e
  | .ok (relation, i) =>
    match dictGet dtr relation with
    | none =>
      match u relation with
      | .error e => .error e
      | .ok _ => uRaise line (Err.noSuchTable relation line)
    | some dts =>
      match parse_values line i dts with
      | .error e => .error e
      | .ok values => .ok (relation, values)

/-- The body loop of `parse_db` (parse.py lines 230-234): strip each line,
skip blanks, decode the rest and append each row to its relation's list.
`tuples_of_relation[r]` on a key the dict does not hold raises `KeyError`. -/
def db_loop {V : Type} (dtr : List (List Nat × List (Datatype V))) :
    List (List Nat × List (List V)) → List (List Nat) → Except Err (List (List Nat × List (List V)))
  | d, [] => .ok d
  | d, l :: ls =>
    let s := strip l
    if s = [] then db_loop dtr d ls
    else
      match parse_row s dtr with
      | .error e => .error e
      | .ok rt =>
        match dictGet d rt.1 with
        | none => .error Err.keyError
        | some rows => db_loop dtr (dictSet d rt.1 (rows ++ [rt.2])) ls

/-- Source `parse_db(lines, schemastring, datatype_parsers)` (parse.py
lines 197-236).  The two external collaborators are parameters:
`parse_schema` stands for `wsl.schema.parse_schema` (modelled by the
ordered relation-name list of the schema it returns, the only part this
module uses) and `make_dtr` for `wsl.schema.make_datatypes_of_relation`.
When `schemastring` is `none` the header is extracted inline. -/
def parse_db {V : Type} (lines : List (List Nat)) (schemastring : Option (List Nat))
    (parse_schema : List Nat → Except Err (List (List Nat)))
    (make_dtr : List (List Nat) → List (List Nat × List (Datatype V))) :
    Except Err (List (List Nat) × List (List Nat × List (List V))) :=
  let a0 := mkAhead lines
  let p :=
    match schemastring with
    | none => split_header a0
    | some ss => (ss, a0)
  match parse_schema p.1 with
  | .error e => .error e
  | .ok relations =>
    let dtr := make_dtr relations
    let d0 := relations.foldl (fun d r => dictSet d r []) []
    match db_loop dtr d0 (aheadList p.2) with
    | .error e => .error e
    | .ok d => .ok (relations, d)

/-! ## Specification-side definitions

Definitions in this section formalise sentences of the specification (for
refinement statements and for stating claims), not source code. -/

/-- Whether an error is the `Expected space character ...` failure. -/
def Err.isExpectedSpace : Err → Bool
  | .expectedSpace .. => true
  | _ => false

/-- Whether an error is the `Expected EOL ...` (trailing data) failure. -/
def Err.isExpectedEol : Err → Bool
  | .expectedEol .. => true
  | _ => false

/-- Whether an error is the `No such table ...` (unknown relation) failure. -/
def Err.isNoSuchTable : Err → Bool
  | .noSuchTable .. => true
  | _ => false

/-- The byte offset a parse failure reports, for the errors that carry one. -/
def Err.pos : Err → Option Nat
  | .atomError i _ => some i
  | .didNotFindString i _ => some i
  | .failedEscape i _ => some i
  | .failedHex i _ => some i
  | .failedConvertEscape i _ => some i
  | .failedStringLiteral i _ => some i
  | .expectedSpace _ i => some i
  | .expectedEol i _ => some i
  | _ => none

/-- The bytes of the message `'No such table: "%s" while parsing line: %s'
% (u(relation), u(line))` (parse.py line 193), in the case where both `u`
calls succeed (so each renders as its own bytes).  The first constant is
the text before the relation name, the second the text between the
relation name and the line. -/
def unknownRelationMsg (relation line : List Nat) : List Nat :=
  [78, 111, 32, 115, 117, 99, 104, 32, 116, 97, 98, 108, 101, 58, 32, 34] ++
    relation ++
    [34, 32, 119, 104, 105, 108, 101, 32, 112, 97, 114, 115, 105, 110, 103, 32,
      108, 105, 110, 101, 58, 32] ++ line

/-- Modelled from the spec: the claim's description of header-line marker
stripping, "the leading `%` and any following spaces stripped" — one
percent byte, then spaces.  (The source instead strips the maximal run of
`%` and space bytes; this definition exists to exhibit the difference.) -/
def stripOneMarker : List Nat → List Nat
  | 37 :: t => t.dropWhile (fun b => b == 32)
  | t => t

/-- Modelled from the spec: the header-extraction process as the claim
describes it, accumulating the header bytes incrementally — discard
all-whitespace lines, append each stripped `%` line plus a newline to the
accumulator, stop at the first non-blank non-`%` line (returning it as the
pushed-back line together with the unconsumed lines). -/
def headerClaim : List (List Nat) → List Nat → List Nat × Option (List Nat) × List (List Nat)
  | [], acc => (acc, none, [])
  | l :: ls, acc =>
    let s := strip l
    if s = [] then headerClaim ls acc
    else if s.head? = some 37 then headerClaim ls (acc ++ s.dropWhile pmB ++ [10])
    else (acc, some s, ls)

/-- Split newline-terminated text into lines (Python `splitlines` on text
without `\r`): used to state the claim that re-feeding an extracted header
through extraction reproduces it. -/
def splitLinesGo : List Nat → List Nat → List (List Nat)
  | [], cur => [cur.reverse]
  | c :: r, cur =>
    if c = 10 then cur.reverse :: (if r.isEmpty then [] else splitLinesGo r [])
    else splitLinesGo r (c :: cur)

/-- See `splitLinesGo`; the empty text has no lines. -/
def splitLines (h : List Nat) : List (List Nat) :=
  if h.isEmpty then [] else splitLinesGo h []

/-- The rows a given relation receives from a sequence of body lines, in
file order: skip blank lines, decode the rest with `parse_row`, keep the
value tuples whose relation is `r`.  (Used to state what `parse_db`
accumulates; on a successful parse every non-blank line decodes.) -/
def rowsForRel {V : Type} (dtr : List (List Nat × List (Datatype V)))
    (ls : List (List Nat)) (r : List Nat) : List (List V) :=
  ls.filterMap (fun l =>
    let s := strip l
    if s = [] then none
    else
      match parse_row s dtr with
      | .ok rt => if rt.1 = r then some rt.2 else none
      | .error _ => none)

/-- The data lines `parse_db` iterates after obtaining the schema: all of
`lines` when a schema string was supplied, else what the lookahead buffer
holds after header extraction. -/
def bodyLines (lines : List (List Nat)) (schemastring : Option (List Nat)) : List (List Nat) :=
  match schemastring with
  | none => aheadList (split_header (mkAhead lines)).2
  | some _ => lines

/-- A decode-is-identity atom column, used to instantiate theorems on
concrete inputs. -/
def idAtom : Datatype (List Nat) := ⟨SynKind.atom, fun s => .ok s⟩

/-- A decode-is-identity string column, used to instantiate theorems on
concrete inputs. -/
def idString : Datatype (List Nat) := ⟨SynKind.string, fun s => .ok s⟩

/-- The three properties each collected header piece enjoys: no leading
`%`/space byte, no trailing ASCII whitespace, and no newline (given
newline-free input lines). -/
def GoodPiece (p : List Nat) : Prop :=
  p.dropWhile pmB = p ∧ rstripWith wsB p = p ∧ ¬ (10 : Nat) ∈ p

/-! ## Helper lemmas -/

theorem dw_cons_neg {p : Nat → Bool} {c : Nat} (t : List Nat) (h : p c = false) :
    (c :: t).dropWhile p = c :: t := by
  simp [List.dropWhile_cons, h]

theorem dw_eq_cons_head {p : Nat → Bool} {c : Nat} {t : List Nat}
    (h : (c :: t).dropWhile p = c :: t) : p c = false := by
  by_contra hc
  have hp : p c = true := by revert hc; cases p c <;> simp
  rw [List.dropWhile_cons, hp] at h
  simp only [if_true] at h
  have hle : (t.dropWhile p).length ≤ t.length := (List.dropWhile_suffix p).sublist.length_le
  have := congrArg List.length h
  simp at this
  omega

theorem dw_idem (p : Nat → Bool) (l : List Nat) :
    (l.dropWhile p).dropWhile p = l.dropWhile p := by
  induction l with
  | nil => rfl
  | cons c t ih =>
    by_cases hc : p c = true
    · rw [List.dropWhile_cons, if_pos hc]
      exact ih
    · have hc2 : p c = false := by revert hc; cases p c <;> simp
      rw [dw_cons_neg t hc2, dw_cons_neg t hc2]

theorem dw_append_fix {p : Nat → Bool} {a b : List Nat}
    (ha : a.dropWhile p = a) (hb : b.dropWhile p = b) :
    (a ++ b).dropWhile p = a ++ b := by
  cases a with
  | nil => simpa using hb
  | cons c t =>
    have hc := dw_eq_cons_head ha
    simpa using dw_cons_neg (t ++ b) hc

theorem dw_front_fixed {p : Nat → Bool} {a : List Nat} (b : List Nat)
    (h : (a ++ b).dropWhile p = a ++ b) : a.dropWhile p = a := by
  cases a with
  | nil => rfl
  | cons c t =>
    rw [List.cons_append] at h
    have hc : p c = false := dw_eq_cons_head h
    exact dw_cons_neg t hc

theorem mem_of_mem_dw {p : Nat → Bool} {x : Nat} {l : List Nat}
    (h : x ∈ l.dropWhile p) : x ∈ l :=
  (List.dropWhile_suffix p).subset h

theorem rstripWith_idem (p : Nat → Bool) (l : List Nat) :
    rstripWith p (rstripWith p l) = rstripWith p l := by
  unfold rstripWith
  rw [List.reverse_reverse, dw_idem]

theorem rstrip_rev_of_fix {p : Nat → Bool} {s : List Nat} (h : rstripWith p s = s) :
    s.reverse.dropWhile p = s.reverse := by
  have := congrArg List.reverse h
  unfold rstripWith at this
  rwa [List.reverse_reverse] at this

theorem rstrip_of_rev_fix {p : Nat → Bool} {s : List Nat}
    (h : s.reverse.dropWhile p = s.reverse) : rstripWith p s = s := by
  unfold rstripWith
  rw [h, List.reverse_reverse]

theorem mem_of_mem_rstrip {p : Nat → Bool} {x : Nat} {l : List Nat}
    (h : x ∈ rstripWith p l) : x ∈ l := by
  unfold rstripWith at h
  rw [List.mem_reverse] at h
  exact List.mem_reverse.mp (mem_of_mem_dw h)

theorem rstrip_fix_dropWhile {p q : Nat → Bool} {s : List Nat}
    (h : rstripWith p s = s) :
    rstripWith p (s.dropWhile q) = s.dropWhile q := by
  apply rstrip_of_rev_fix
  have hsplit : s.takeWhile q ++ s.dropWhile q = s := List.takeWhile_append_dropWhile q s
  have hrev : (s.dropWhile q).reverse ++ (s.takeWhile q).reverse = s.reverse := by
    rw [← List.reverse_append, hsplit]
  have hfix : s.reverse.dropWhile p = s.reverse := rstrip_rev_of_fix h
  rw [← hrev] at hfix
  exact dw_front_fixed _ hfix

theorem strip_rstrip_fix (l : List Nat) : rstripWith wsB (strip l) = strip l := by
  unfold strip
  exact rstripWith_idem wsB _

theorem mem_of_mem_strip {x : Nat} {l : List Nat} (h : x ∈ strip l) : x ∈ l := by
  unfold strip at h
  exact mem_of_mem_dw (mem_of_mem_rstrip h)

theorem strip_cons_percent {t : List Nat} (h : rstripWith wsB t = t) :
    strip (37 :: t) = 37 :: t := by
  unfold strip
  rw [dw_cons_neg t (by rfl)]
  apply rstrip_of_rev_fix
  rw [List.reverse_cons]
  exact dw_append_fix (rstrip_rev_of_fix h) (by rfl)

theorem dictGet_dictSet_self {A : Type} (d : List (List Nat × A)) (k : List Nat) (v : A) :
    dictGet (dictSet d k v) k = some v := by
  induction d with
  | nil => simp [dictSet, dictGet]
  | cons kv d ih =>
    by_cases hk : kv.1 = k
    · simp [dictSet, hk, dictGet]
    · simp only [dictSet, hk, if_false]
      simpa [dictGet, hk] using ih

theorem dictGet_dictSet_ne {A : Type} (d : List (List Nat × A)) {k r : List Nat} (v : A)
    (h : r ≠ k) : dictGet (dictSet d k v) r = dictGet d r := by
  induction d with
  | nil =>
    have : ¬ k = r := fun he => h he.symm
    simp [dictSet, dictGet, this]
  | cons kv d ih =>
    by_cases hk : kv.1 = k
    · have : ¬ (k = r) := fun he => h he.symm
      simp [dictSet, hk, dictGet, this, hk ▸ this]
    · simp only [dictSet, hk, if_false]
      by_cases hr : kv.1 = r <;> simp [dictGet, hr, ih]

theorem map_fst_dictSet_mem {A : Type} {d : List (List Nat × A)} {k : List Nat} {w : A}
    (v : A) (h : dictGet d k = some w) :
    (dictSet d k v).map Prod.fst = d.map Prod.fst := by
  induction d with
  | nil => simp [dictGet] at h
  | cons kv d ih =>
    by_cases hk : kv.1 = k
    · simp [dictSet, hk]
    · simp only [dictGet, hk, if_false] at h
      simp [dictSet, hk, ih h]

theorem dictSet_not_mem {A : Type} {d : List (List Nat × A)} {k : List Nat} (v : A)
    (h : ¬ k ∈ d.map Prod.fst) : dictSet d k v = d ++ [(k, v)] := by
  induction d with
  | nil => rfl
  | cons kv d ih =>
    simp only [List.map_cons, List.mem_cons] at h
    push_neg at h
    have hk : ¬ kv.1 = k := fun he => h.1 he.symm
    simp [dictSet, hk, ih h.2]

theorem dictGet_pairs_mem {A : Type} (rels : List (List Nat)) (a : A) {r : List Nat}
    (h : r ∈ rels) : dictGet (rels.map (fun x => (x, a))) r = some a := by
  induction rels with
  | nil => cases h
  | cons q rels ih =>
    by_cases hq : q = r
    · simp [dictGet, hq]
    · rcases List.mem_cons.mp h with he | hm
      · exact absurd he.symm hq
      · simp [dictGet, hq, ih hm]

theorem dictGet_pairs_not_mem {A : Type} (rels : List (List Nat)) (a : A) {r : List Nat}
    (h : ¬ r ∈ rels) : dictGet (rels.map (fun x => (x, a))) r = none := by
  induction rels with
  | nil => rfl
  | cons q rels ih =>
    simp only [List.mem_cons] at h
    push_neg at h
    have hq : ¬ q = r := fun he => h.1 he.symm
    simp [dictGet, hq, ih h.2]

theorem foldl_dictSet_pairs {A : Type} (a : A) :
    ∀ (rels : List (List Nat)) (d : List (List Nat × A)),
      rels.Nodup → (∀ r ∈ rels, ¬ r ∈ d.map Prod.fst) →
      rels.foldl (fun d2 r => dictSet d2 r a) d = d ++ rels.map (fun x => (x, a))
  | [], d, _, _ => by simp
  | q :: rels, d, hnd, hdisj => by
    have hq : ¬ q ∈ d.map Prod.fst := hdisj q (List.mem_cons_self q rels)
    have hstep : dictSet d q a = d ++ [(q, a)] := dictSet_not_mem a hq
    have hnd2 : rels.Nodup := (List.nodup_cons.mp hnd).2
    have hqnotin : ¬ q ∈ rels := (List.nodup_cons.mp hnd).1
    have hdisj2 : ∀ r ∈ rels, ¬ r ∈ (d ++ [(q, a)]).map Prod.fst := by
      intro r hr
      simp only [List.map_append, List.mem_append, List.map_cons, List.map_nil]
      rintro (hin | hin)
      · exact hdisj r (List.mem_cons_of_mem q hr) hin
      · simp only [List.mem_singleton] at hin
        exact hqnotin (hin ▸ hr)
    calc (q :: rels).foldl (fun d2 r => dictSet d2 r a) d
        = rels.foldl (fun d2 r => dictSet d2 r a) (d ++ [(q, a)]) := by
          simp [List.foldl_cons, hstep]
      _ = d ++ [(q, a)] ++ rels.map (fun x => (x, a)) :=
          foldl_dictSet_pairs a rels (d ++ [(q, a)]) hnd2 hdisj2
      _ = d ++ (q :: rels).map (fun x => (x, a)) := by simp

theorem splitLinesGo_append (r : List Nat) :
    ∀ (p acc : List Nat), (∀ x ∈ p, x ≠ 10) →
      splitLinesGo (p ++ 10 :: r) acc
        = (acc.reverse ++ p) :: (if r.isEmpty then [] else splitLinesGo r [])
  | [], acc, _ => by simp [splitLinesGo]
  | c :: p, acc, hp => by
    have hc : c ≠ 10 := hp c (List.mem_cons_self c p)
    have hp2 : ∀ x ∈ p, x ≠ 10 := fun x hx => hp x (List.mem_cons_of_mem c hx)
    rw [List.cons_append]
    show splitLinesGo (c :: (p ++ 10 :: r)) acc = _
    rw [splitLinesGo, if_neg hc]
    rw [splitLinesGo_append r p (c :: acc) hp2]
    simp

theorem joinNl_ne_nil (p : List Nat) (ps : List (List Nat)) : joinNl (p :: ps) ≠ [] := by
  simp [joinNl]

theorem splitLines_joinNl :
    ∀ (ps : List (List Nat)), (∀ p ∈ ps, ¬ (10 : Nat) ∈ p) →
      splitLines (joinNl ps) = ps
  | [], _ => rfl
  | p :: ps, hp => by
    have hp1 : ∀ x ∈ p, x ≠ 10 := by
      intro x hx he
      exact hp p (List.mem_cons_self p ps) (he ▸ hx)
    have hne : ¬ (joinNl (p :: ps)).isEmpty = true := by
      simp [List.isEmpty_iff]
      exact joinNl_ne_nil p ps
    rw [splitLines, if_neg hne]
    show splitLinesGo (p ++ 10 :: joinNl ps) [] = p :: ps
    rw [splitLinesGo_append (joinNl ps) p [] hp1]
    cases ps with
    | nil => simp [joinNl]
    | cons q qs =>
      have hne2 : ¬ (joinNl (q :: qs)).isEmpty = true := by
        simp [List.isEmpty_iff]
        exact joinNl_ne_nil q qs
      have : splitLines (joinNl (q :: qs)) = q :: qs :=
        splitLines_joinNl (q :: qs) (fun x hx => hp x (List.mem_cons_of_mem p hx))
      rw [splitLines, if_neg hne2] at this
      simp only [List.reverse_nil, List.nil_append, if_neg hne2, this]

theorem split_header_lines_good :
    ∀ (ls : List (List Nat)), (∀ l ∈ ls, ¬ (10 : Nat) ∈ l) →
      ∀ p ∈ (split_header_lines ls).1, GoodPiece p
  | [], _ => by intro p hp; cases hp
  | l :: ls, h10 => by
    intro p hp
    have hrec := split_header_lines_good ls (fun l2 hl2 => h10 l2 (List.mem_cons_of_mem l hl2))
    rw [split_header_lines] at hp
    by_cases hs : strip l = []
    · rw [if_pos hs] at hp
      exact hrec p hp
    · rw [if_neg hs] at hp
      by_cases hpc : (strip l).head? = some 37
      · rw [if_pos hpc] at hp
        simp only [List.mem_cons] at hp
        rcases hp with he | hm
        · subst he
          refine ⟨dw_idem pmB (strip l), rstrip_fix_dropWhile (strip_rstrip_fix l), ?_⟩
          intro hmem
          exact h10 l (List.mem_cons_self l ls) (mem_of_mem_strip (mem_of_mem_dw hmem))
        · exact hrec p hm
      · rw [if_neg hpc] at hp
        cases hp

theorem split_header_lines_percent :
    ∀ (ps : List (List Nat)),
      (∀ p ∈ ps, p.dropWhile pmB = p ∧ rstripWith wsB p = p) →
      split_header_lines (ps.map (fun p => 37 :: p)) = (ps, none, [])
  | [], _ => rfl
  | p :: ps, hgood => by
    have h1 := hgood p (List.mem_cons_self p ps)
    have hstrip : strip (37 :: p) = 37 :: p := strip_cons_percent h1.2
    rw [List.map_cons, split_header_lines, hstrip]
    have hne : ¬ (37 :: p) = ([] : List Nat) := by simp
    rw [if_neg hne]
    have hhead : (37 :: p).head? = some 37 := rfl
    rw [if_pos hhead]
    have hdrop : (37 :: p).dropWhile pmB = p := by
      have hpm : pmB 37 = true := rfl
      rw [List.dropWhile_cons, if_pos hpm]
      exact h1.1
    rw [hdrop,
      split_header_lines_percent ps (fun q hq => hgood q (List.mem_cons_of_mem p hq))]

theorem uRaise_ne_ok {A : Type} (bin : List Nat) (e : Err) (a : A) :
    uRaise bin e ≠ .ok a := by
  unfold uRaise u
  by_cases hv : utf8Valid bin = true <;> simp [hv]

theorem uRaise_valid {A : Type} {bin : List Nat} (e : Err) (h : utf8Valid bin = true) :
    (uRaise bin e : Except Err A) = .error e := by
  unfold uRaise u
  simp [h]

theorem headerClaim_eq :
    ∀ (ls : List (List Nat)) (acc : List Nat),
      headerClaim ls acc
        = (acc ++ joinNl (split_header_lines ls).1, (split_header_lines ls).2)
  | [], acc => by simp [headerClaim, split_header_lines, joinNl]
  | l :: ls, acc => by
    by_cases hs : strip l = []
    · simp only [headerClaim, split_header_lines, hs, if_true, if_pos rfl]
      exact headerClaim_eq ls acc
    · by_cases hpc : (strip l).head? = some 37
      · simp only [headerClaim, split_header_lines, hs, if_neg hs, hpc, if_pos rfl]
        rw [headerClaim_eq ls (acc ++ (strip l).dropWhile pmB ++ [10])]
        simp [joinNl, List.append_assoc]
      · simp only [headerClaim, split_header_lines, hs, if_neg hs, hpc, if_neg hpc]
        simp [joinNl]

theorem rowsForRel_nil {V : Type} (dtr : List (List Nat × List (Datatype V))) (r : List Nat) :
    rowsForRel dtr [] r = [] := rfl

theorem rowsForRel_cons_blank {V : Type} {dtr : List (List Nat × List (Datatype V))}
    {l : List Nat} (ls : List (List Nat)) (r : List Nat) (h : strip l = []) :
    rowsForRel dtr (l :: ls) r = rowsForRel dtr ls r := by
  simp [rowsForRel, List.filterMap_cons, h]

theorem rowsForRel_cons_row {V : Type} {dtr : List (List Nat × List (Datatype V))}
    {l : List Nat} (ls : List (List Nat)) (r : List Nat) {rt : List Nat × List V}
    (hs : ¬ strip l = []) (hp : parse_row (strip l) dtr = .ok rt) :
    rowsForRel dtr (l :: ls) r
      = if rt.1 = r then rt.2 :: rowsForRel dtr ls r else rowsForRel dtr ls r := by
  simp only [rowsForRel, List.filterMap_cons, hs, if_neg hs, hp]
  by_cases hr : rt.1 = r <;> simp [hr]

theorem db_loop_ok {V : Type} (dtr : List (List Nat × List (Datatype V))) :
    ∀ (ls : List (List Nat)) (d d2 : List (List Nat × List (List V))),
      db_loop dtr d ls = .ok d2 →
      d2.map Prod.fst = d.map Prod.fst ∧
      ∀ r, dictGet d2 r = (dictGet d r).map (fun rows => rows ++ rowsForRel dtr ls r)
  | [], d, d2, h => by
    simp only [db_loop, Except.ok.injEq] at h
    subst h
    refine ⟨rfl, fun r => ?_⟩
    rw [rowsForRel_nil]
    cases dictGet d r <;> simp
  | l :: ls, d, d2, h => by
    by_cases hs : strip l = []
    · simp only [db_loop, if_pos hs] at h
      have := db_loop_ok dtr ls d d2 h
      refine ⟨this.1, fun r => ?_⟩
      rw [rowsForRel_cons_blank ls r hs, this.2 r]
    · simp only [db_loop, if_neg hs] at h
      cases hp : parse_row (strip l) dtr with
      | error e => simp only [hp] at h; cases h
      | ok rt =>
        simp only [hp] at h
        cases hg : dictGet d rt.1 with
        | none => simp only [hg] at h; cases h
        | some rows =>
          simp only [hg] at h
          have ih := db_loop_ok dtr ls (dictSet d rt.1 (rows ++ [rt.2])) d2 h
          have hkeys : (dictSet d rt.1 (rows ++ [rt.2])).map Prod.fst = d.map Prod.fst :=
            map_fst_dictSet_mem _ hg
          refine ⟨ih.1.trans hkeys, fun r => ?_⟩
          rw [ih.2 r, rowsForRel_cons_row ls r hs hp]
          by_cases hr : rt.1 = r
          · subst hr
            rw [dictGet_dictSet_self, hg, if_pos rfl]
            simp
          · have hr2 : r ≠ rt.1 := fun he => hr he.symm
            rw [dictGet_dictSet_ne d _ hr2, if_neg hr]

theorem get_some_lt {line : List Nat} {i c : Nat} (h : line.get? i = some c) :
    i < line.length := by
  by_contra hge
  rw [List.get?_eq_none.mpr (Nat.le_of_not_lt hge)] at h
  cases h

theorem drop_cons_of_get {line : List Nat} {i c : Nat} (h : line.get? i = some c) :
    line.drop i = c :: line.drop (i + 1) := by
  have hlt : i < line.length := get_some_lt h
  rw [List.drop_eq_get_cons hlt]
  have h2 : line.get? i = some (line.get ⟨i, hlt⟩) := List.get?_eq_get hlt
  rw [h2] at h
  rw [Option.some.injEq] at h
  rw [h]

theorem parse_values_loop_length {V : Type} (line : List Nat) :
    ∀ (dts : List (Datatype V)) (i : Nat) (vs : List V) (j : Nat),
      parse_values_loop line i dts = .ok (vs, j) → vs.length = dts.length
  | [], i, vs, j, h => by
    simp only [parse_values_loop, Except.ok.injEq, Prod.mk.injEq] at h
    rw [← h.1]
    rfl
  | dt :: dts, i, vs, j, h => by
    rw [parse_values_loop] at h
    cases hsp : parse_space line i with
    | error e => simp only [hsp] at h; cases h
    | ok i2 =>
      simp only [hsp] at h
      cases hsr : (match dt.stype with
        | SynKind.atom => parse_atom line i2
        | SynKind.string =>
          match parse_string line i2 with
          | .error e => .error e
          | .ok none => .error Err.typeError
          | .ok (some q) => .ok q) with
      | error e => simp only [hsr] at h; cases h
      | ok si =>
        simp only [hsr] at h
        cases hdec : dt.decode si.1 with
        | error e => simp only [hdec] at h; cases h
        | ok val =>
          simp only [hdec] at h
          cases hloop : parse_values_loop line si.2 dts with
          | error e => simp only [hloop] at h; cases h
          | ok vj =>
            simp only [hloop, Except.ok.injEq, Prod.mk.injEq] at h
            have hlen := parse_values_loop_length line dts si.2 vj.1 vj.2 (by
              rw [hloop])
            rw [← h.1]
            simp [hlen]

/-! ## Claim theorems -/

/-- Claim C1 states: for every line and offset at which `parse_string` is
called on a string literal that begins with a double quote but reaches the
end of the line without an unescaped closing double quote, `parse_string`
fails with an `UnterminatedString` error (it does not return normally).
**What the code does instead** (evidence for the `code_bug` verdict): on
the spec's own example `b'"abc'` the `while` loop exhausts the line and
the function returns `None`; the enclosing `parse_values` then crashes
unpacking the `None` (a `TypeError`), not with any descriptive
unterminated-string error. -/
theorem c1_unterminated_string_returns_none :
    parse_string [34, 97, 98, 99] 0 = .ok none ∧
    parse_values [114, 32, 34, 97, 98, 99] 1 [idString] = .error Err.typeError :=
  ⟨rfl, rfl⟩

/-- Claim C2 states: `\xHH` with two lowercase hex digits decodes to the
byte `hi*16+lo`; fewer than two following bytes or a non-lowercase-hex
byte fails with `MalformedEscape`.  **What the code does instead**
(evidence for the `code_bug` verdict): `hexconvert` applies `ord` to
`line[i+2]`, an `int` in Python 3, so every `\x` escape raises
`TypeError` — `b'"\x61"'` (which the claim says decodes to byte `0x61`)
and `b'"\xAB"'` alike — and `b'"\x'` raises `IndexError` from the
unguarded `line[i+2]` (the length pre-check is dead, its `int == str`
comparison being always false).  `hexconvert` itself works as described
when handed a one-character string, confirming the call-site type
mismatch is the slip. -/
theorem c2_hex_escape_raises_typeerror :
    parse_string [34, 92, 120, 54, 49, 34] 0 = .error Err.typeError ∧
    parse_string [34, 92, 120, 65, 66, 34] 0 = .error Err.typeError ∧
    parse_string [34, 92, 120] 0 = .error Err.indexError ∧
    hexconvert (PyVal.int 54) = .error Err.typeError ∧
    hexconvert (PyVal.str [54]) = .ok (some 6) ∧
    hexconvert (PyVal.str [97]) = .ok (some 10) :=
  ⟨rfl, rfl, rfl, rfl, rfl, rfl⟩

/-- Claim C9: the lookahead buffer's `next` returns the pushed-back line and
clears the one-item slot when the slot is occupied, otherwise pulls from
the underlying sequence, signalling end-of-input (`none`, Python's
`StopIteration`) when it is exhausted; `unget` while a line is already
buffered is the assertion failure, and on an empty slot stores exactly the
given line — so the slot (an `Option`) never holds more than one line. -/
theorem c9_ahead_buffer_spec :
    (∀ (l : List Nat) (rest : List (List Nat)),
        Ahead.next ⟨some l, rest⟩ = some (l, ⟨none, rest⟩)) ∧
    (∀ (l : List Nat) (rest : List (List Nat)),
        Ahead.next ⟨none, l :: rest⟩ = some (l, ⟨none, rest⟩)) ∧
    Ahead.next ⟨none, []⟩ = none ∧
    (∀ (l2 : List Nat) (rest : List (List Nat)) (l : List Nat),
        Ahead.unget ⟨some l2, rest⟩ l = .error Err.assertionError) ∧
    (∀ (rest : List (List Nat)) (l : List Nat),
        Ahead.unget ⟨none, rest⟩ l = .ok ⟨some l, rest⟩) :=
  ⟨fun _ _ => rfl, fun _ _ => rfl, rfl, fun _ _ _ => rfl, fun _ _ => rfl⟩

/-- Counterexample for claim C4: the claim says any bytes remaining after the
last value fail with a `TrailingData` error; on the line `[255]` with zero
columns, bytes do remain (offset 0, length 1) but the failure is the
invalid-UTF-8 diagnostic raised while formatting the message, not the
`Expected EOL` (trailing-data) error. -/
theorem c4_counterexample :
    parse_values [255] 0 ([] : List (Datatype (List Nat))) = .error (Err.notUtf8 [255]) ∧
    Err.isExpectedEol (Err.notUtf8 [255]) = false ∧
    (0 : Nat) ≠ ([255] : List Nat).length :=
  ⟨rfl, rfl, by decide⟩

/-- Counterexample for claim C5: the claim says `parse_space` fails with an
`ExpectedSpace` error whenever the byte at the offset is missing or not
`0x20`; at offset 0 of the line `[255]` the byte exists and is not `0x20`,
yet the failure is the invalid-UTF-8 diagnostic, not `ExpectedSpace`. -/
theorem c5_counterexample :
    parse_space [255] 0 = .error (Err.notUtf8 [255]) ∧
    Err.isExpectedSpace (Err.notUtf8 [255]) = false :=
  ⟨rfl, rfl⟩

/-- Counterexample for claim C6: the claim says a line whose leading atom is not
a declared relation fails with an `UnknownRelation` error naming the
relation; for the undeclared atom `[255]` the failure is the invalid-UTF-8
diagnostic raised by `u(relation)` while formatting the message, not the
`No such table` error. -/
theorem c6_counterexample :
    parse_row [255] ([] : List (List Nat × List (Datatype (List Nat))))
        = .error (Err.notUtf8 [255]) ∧
    Err.isNoSuchTable (Err.notUtf8 [255]) = false :=
  ⟨rfl, rfl⟩

/-- Counterexample for claim C7: the claim says a header line has "its leading
`%` and any following spaces stripped"; on the line `%%a` that reading
keeps the second `%` (producing `%a`), but the source's `lstrip(b'% ')`
strips every leading `%` and space byte, producing `a`. -/
theorem c7_counterexample :
    (split_header (mkAhead [[37, 37, 97]])).1 = [97, 10] ∧
    stripOneMarker (strip [37, 37, 97]) ++ [10] = [37, 97, 10] ∧
    ([97, 10] : List Nat) ≠ [37, 97, 10] :=
  ⟨rfl, rfl, by decide⟩

/-- Claim C7 (as amended): for every line sequence, `split_header` discards
all-whitespace lines; takes each subsequent non-blank line starting with
`%` with its whole maximal leading run of `%` and space bytes stripped
(not just one `%` plus spaces — see the counterexample); appends each such
stripped line plus a trailing newline to the accumulated result; stops at
the first non-blank line not starting with `%`, pushing that line (in its
whitespace-trimmed form) back onto the buffer; and returns the
concatenation (empty when no header lines are present).  Stated as a
refinement: the source function equals the incremental accumulator
process described by the (amended) claim. -/
theorem c7_split_header_refines_claim (ls : List (List Nat)) :
    split_header (mkAhead ls)
      = ((headerClaim ls []).1, ⟨(headerClaim ls []).2.1, (headerClaim ls []).2.2⟩) := by
  rw [headerClaim_eq ls []]
  simp [split_header, mkAhead, aheadList]

/-- Claim C8: `split_header` is idempotent on header-only input — for every
line sequence (lines being newline-free, as lines of a line iterator are),
splitting the extracted header bytes back into lines, prefixing each line
with a `%` marker, and extracting again yields the same header bytes. -/
theorem c8_split_header_idempotent (ls : List (List Nat))
    (h10 : ∀ l ∈ ls, ¬ (10 : Nat) ∈ l) :
    (split_header (mkAhead ((splitLines (split_header (mkAhead ls)).1).map
        (fun p => 37 :: p)))).1
      = (split_header (mkAhead ls)).1 := by
  have hpieces : ∀ p ∈ (split_header_lines ls).1, GoodPiece p :=
    split_header_lines_good ls h10
  have h1 : (split_header (mkAhead ls)).1 = joinNl (split_header_lines ls).1 := rfl
  have hsplit : splitLines (joinNl (split_header_lines ls).1) = (split_header_lines ls).1 :=
    splitLines_joinNl _ (fun p hp => (hpieces p hp).2.2)
  have hperc : split_header_lines ((split_header_lines ls).1.map (fun p => 37 :: p))
      = ((split_header_lines ls).1, none, []) :=
    split_header_lines_percent _ (fun p hp => ⟨(hpieces p hp).1, (hpieces p hp).2.1⟩)
  rw [h1, hsplit]
  show joinNl (split_header_lines ((split_header_lines ls).1.map (fun p => 37 :: p))).1
      = joinNl (split_header_lines ls).1
  rw [hperc]

/-- Witness for claim C8: a concrete header-only input (`% a` and `%% b`
lines), its hypothesis discharged and its conclusion evaluated. -/
theorem c8_witness :
    (∀ l ∈ [[37, 97], [37, 37, 98]], ¬ (10 : Nat) ∈ l) ∧
    (split_header (mkAhead ((splitLines
          (split_header (mkAhead [[37, 97], [37, 37, 98]])).1).map
        (fun p => 37 :: p)))).1
      = (split_header (mkAhead [[37, 97], [37, 37, 98]])).1 :=
  ⟨by decide, c8_split_header_idempotent [[37, 97], [37, 37, 98]] (by decide)⟩

/-- Claim C4 (as amended): for every line, starting offset and column list,
`parse_values` succeeds exactly when the offset after consuming all `N`
values equals the line length, returning exactly `N` decoded values (the
loop's result, in column order); if bytes remain after the last value it
fails with the `Expected EOL` (trailing-data) error — provided the line is
valid UTF-8; on an invalid-UTF-8 line the diagnostics helper raises its
own error instead (see the counterexample). -/
theorem c4_parse_values_requires_eol {V : Type} (line : List Nat) (i : Nat)
    (dts : List (Datatype V)) :
    (∀ vs, parse_values line i dts = .ok vs →
        vs.length = dts.length ∧ parse_values_loop line i dts = .ok (vs, line.length)) ∧
    (∀ vs j, parse_values_loop line i dts = .ok (vs, j) → j ≠ line.length →
        utf8Valid line = true →
        parse_values line i dts = .error (Err.expectedEol j line)) := by
  constructor
  · intro vs h
    cases hloop : parse_values_loop line i dts with
    | error e =>
      simp only [parse_values, hloop] at h
      cases h
    | ok vj =>
      obtain ⟨vs2, j2⟩ := vj
      simp only [parse_values, hloop] at h
      by_cases hj : j2 ≠ line.length
      · rw [if_pos hj] at h
        exact absurd h (uRaise_ne_ok line _ vs)
      · rw [if_neg hj] at h
        push_neg at hj
        have hvs : vs2 = vs := by
          injection h
        subst hvs
        subst hj
        exact ⟨parse_values_loop_length line dts i vs2 line.length hloop, rfl⟩
  · intro vs j hloop hj hv
    simp only [parse_values, hloop, if_pos hj]
    exact uRaise_valid _ hv

/-- Witness for claim C4: the relation line `r a` decodes one atom column
ending exactly at the line end; with a trailing space appended, the loop
still stops at offset 3 and `parse_values` reports `Expected EOL` there. -/
theorem c4_witness :
    parse_values [114, 32, 97] 1 [idAtom] = .ok [[97]] ∧
    ([[97]] : List (List Nat)).length = [idAtom].length ∧
    parse_values_loop [114, 32, 97] 1 [idAtom] = .ok ([[97]], 3) ∧
    parse_values_loop [114, 32, 97, 32] 1 [idAtom] = .ok ([[97]], 3) ∧
    (3 : Nat) ≠ [114, 32, 97, 32].length ∧
    utf8Valid [114, 32, 97, 32] = true ∧
    parse_values [114, 32, 97, 32] 1 [idAtom] = .error (Err.expectedEol 3 [114, 32, 97, 32]) := by
  refine ⟨rfl, ?_, ?_, rfl, by decide, rfl, ?_⟩
  · exact ((c4_parse_values_requires_eol [114, 32, 97] 1 [idAtom]).1 [[97]] rfl).1
  · have := ((c4_parse_values_requires_eol [114, 32, 97] 1 [idAtom]).1 [[97]] rfl).2
    simpa using this
  · exact (c4_parse_values_requires_eol [114, 32, 97, 32] 1 [idAtom]).2 [[97]] 3 rfl
      (by decide) rfl

/-- Claim C5 (as amended): `parse_space` succeeds returning `offset+1`
exactly when the byte at the offset exists and is `0x20`; otherwise it
fails — with the `Expected space` error when the offset is within the
line and the line is valid UTF-8 (on an invalid-UTF-8 line the
diagnostics helper raises instead, and at an offset beyond the length the
index expression itself raises `IndexError` — see the counterexample).
`parse_values` invokes it once before every value token including the
first, so two consecutive spaces make the value parse fail at the second
space's position, whichever syntax kind the first column has. -/
theorem c5_parse_space_consumes_one_space (V : Type) (line : List Nat) (i : Nat) :
    (line.get? i = some 32 → parse_space line i = .ok (i + 1)) ∧
    (∀ j, parse_space line i = .ok j → j = i + 1 ∧ line.get? i = some 32) ∧
    (¬ line.get? i = some 32 → i ≤ line.length → utf8Valid line = true →
        parse_space line i = .error (Err.expectedSpace line i)) ∧
    (∀ (dt : Datatype V) (dts : List (Datatype V)),
        line.get? i = some 32 → line.get? (i + 1) = some 32 → utf8Valid line = true →
        ∃ e, parse_values line i (dt :: dts) = .error e ∧ e.pos = some (i + 1)) := by
  have hspace : ∀ k, line.get? k = some 32 → parse_space line k = .ok (k + 1) := by
    intro k hk
    have hlt := get_some_lt hk
    have hne : ¬ k = line.length := by omega
    simp only [parse_space, if_neg hne, hk]
    simp
  refine ⟨hspace i, ?_, ?_, ?_⟩
  · intro j hj
    by_cases hie : i = line.length
    · rw [parse_space, if_pos hie] at hj
      exact absurd hj (uRaise_ne_ok line _ j)
    · rw [parse_space, if_neg hie] at hj
      cases hg : line.get? i with
      | none => simp only [hg] at hj; cases hj
      | some c =>
        simp only [hg] at hj
        by_cases hc : c ≠ 32
        · rw [if_pos hc] at hj
          exact absurd hj (uRaise_ne_ok line _ j)
        · rw [if_neg hc] at hj
          push_neg at hc
          subst hc
          injection hj with hj2
          exact ⟨hj2.symm, rfl⟩
  · intro hns hle hv
    by_cases hie : i = line.length
    · rw [parse_space, if_pos hie]
      exact uRaise_valid _ hv
    · have hlt : i < line.length := by omega
      have hgc : line.get? i = some (line.get ⟨i, hlt⟩) := List.get?_eq_get hlt
      have hc : line.get ⟨i, hlt⟩ ≠ 32 := fun he => hns (he ▸ hgc)
      rw [parse_space, if_neg hie]
      simp only [hgc]
      rw [if_pos hc]
      exact uRaise_valid _ hv
  · intro dt dts h1 h2 hv
    have hps : parse_space line i = .ok (i + 1) := hspace i h1
    have hlt2 := get_some_lt h2
    have hne2 : ¬ (i + 1) = line.length := by omega
    have hdrop : line.drop (i + 1) = 32 :: line.drop (i + 1 + 1) := drop_cons_of_get h2
    cases hst : dt.stype with
    | atom =>
      have hatom : parse_atom line (i + 1) = .error (Err.atomError (i + 1) line) := by
        rw [parse_atom, hdrop, List.takeWhile_cons]
        norm_num
        exact uRaise_valid _ hv
      refine ⟨Err.atomError (i + 1) line, ?_, rfl⟩
      simp only [parse_values, parse_values_loop, hps, hst, hatom]
    | string =>
      have hstring : parse_string line (i + 1)
          = .error (Err.didNotFindString (i + 1) line) := by
        have hc34 : (32 : Nat) ≠ 34 := by decide
        rw [parse_string, if_neg hne2]
        simp only [h2]
        rw [if_pos hc34]
        exact uRaise_valid _ hv
      refine ⟨Err.didNotFindString (i + 1) line, ?_, rfl⟩
      simp only [parse_values, parse_values_loop, hps, hst, hstring]

/-- Witness for claim C5: concrete instances of each part — a space consumed
at offset 0, a non-space byte rejected with `Expected space`, and the
two-space line `(space)(space)a` failing at offset 1. -/
theorem c5_witness :
    parse_space [32, 97] 0 = .ok 1 ∧
    parse_space [97] 0 = .error (Err.expectedSpace [97] 0) ∧
    (∃ e, parse_values [32, 32, 97] 0 [idAtom] = .error e ∧ e.pos = some 1) := by
  refine ⟨?_, ?_, ?_⟩
  · exact (c5_parse_space_consumes_one_space (List Nat) [32, 97] 0).1 rfl
  · exact (c5_parse_space_consumes_one_space (List Nat) [97] 0).2.2.1 (by decide)
      (by decide) rfl
  · exact (c5_parse_space_consumes_one_space (List Nat) [32, 32, 97] 0).2.2.2 idAtom []
      rfl rfl rfl

/-- Claim C6 (as amended): for every data line whose leading atom is not a
key of the relation-to-columns mapping, `parse_row` fails with the
`No such table` (unknown-relation) error whose message contains the
relation name — provided the relation name and the line are valid UTF-8
(otherwise the diagnostics helper raises its own error first, see the
counterexample); for every line whose leading atom is a declared relation,
`parse_row` returns that relation name paired with whatever decoding the
rest of the line through the relation's columns yields. -/
theorem c6_parse_row_unknown_relation {V : Type} (line rel : List Nat) (i : Nat)
    (dtr : List (List Nat × List (Datatype V)))
    (ha : parse_atom line 0 = .ok (rel, i)) :
    (dictGet dtr rel = none → utf8Valid rel = true → utf8Valid line = true →
        parse_row line dtr = .error (Err.noSuchTable rel line) ∧
        rel <:+: unknownRelationMsg rel line) ∧
    (∀ dts, dictGet dtr rel = some dts →
        parse_row line dtr = (parse_values line i dts).map (fun vs => (rel, vs))) := by
  constructor
  · intro hnone hvr hvl
    constructor
    · rw [parse_row]
      simp only [ha, hnone]
      rw [show u rel = .ok rel from by simp [u, hvr]]
      exact uRaise_valid _ hvl
    · refine ⟨[78, 111, 32, 115, 117, 99, 104, 32, 116, 97, 98, 108, 101, 58, 32, 34],
        [34, 32, 119, 104, 105, 108, 101, 32, 112, 97, 114, 115, 105, 110, 103, 32,
          108, 105, 110, 101, 58, 32] ++ line, ?_⟩
      simp [unknownRelationMsg]
  · intro dts hsome
    rw [parse_row]
    simp only [ha, hsome]
    cases hpv : parse_values line i dts with
    | error e => simp [Except.map]
    | ok vs => simp [Except.map]

/-- Witness for claim C6: the undeclared relation `a` (valid UTF-8) fails
with `No such table` and the relation name occurs in the message; the same
atom declared with zero columns parses through `parse_values`. -/
theorem c6_witness :
    (parse_row [97] ([] : List (List Nat × List (Datatype (List Nat))))
        = .error (Err.noSuchTable [97] [97]) ∧
      [97] <:+: unknownRelationMsg [97] [97]) ∧
    parse_row [97] [([97], ([] : List (Datatype (List Nat))))]
      = (parse_values [97] 1 ([] : List (Datatype (List Nat)))).map (fun vs => ([97], vs)) := by
  constructor
  · exact (c6_parse_row_unknown_relation [97] [97] 1 [] rfl).1 rfl rfl rfl
  · exact (c6_parse_row_unknown_relation [97] [97] 1
      [([97], ([] : List (Datatype (List Nat))))] rfl).2 [] rfl

/-- Claim C10: for a relation declared with an empty column list, a body
line consisting of exactly the relation atom decodes via `parse_row` to
that relation paired with the empty value tuple, and any line with bytes
after the atom fails (with the trailing-data error or, on an
invalid-UTF-8 line, the diagnostics error) — so zero-column relations are
accepted. -/
theorem c10_zero_column_relation {V : Type} (line r : List Nat) (i : Nat)
    (dtr : List (List Nat × List (Datatype V)))
    (ha : parse_atom line 0 = .ok (r, i)) (hd : dictGet dtr r = some []) :
    (i = line.length → parse_row line dtr = .ok (r, ([] : List V))) ∧
    (¬ i = line.length → ∃ e, parse_row line dtr = .error e) := by
  constructor
  · intro he
    rw [parse_row]
    simp only [ha, hd, parse_values, parse_values_loop]
    simp [he]
  · intro hne
    cases hu : u line with
    | error e2 =>
      refine ⟨e2, ?_⟩
      rw [parse_row]
      simp only [ha, hd, parse_values, parse_values_loop, if_pos hne, uRaise, hu]
    | ok w =>
      refine ⟨Err.expectedEol i line, ?_⟩
      rw [parse_row]
      simp only [ha, hd, parse_values, parse_values_loop, if_pos hne, uRaise, hu]

/-- Witness for claim C10: relation `r` declared with zero columns — the
bare line `r` yields the empty tuple, the line `r(space)` fails. -/
theorem c10_witness :
    parse_row [114] [([114], ([] : List (Datatype (List Nat))))] = .ok ([114], []) ∧
    (∃ e, parse_row [114, 32] [([114], ([] : List (Datatype (List Nat))))] = .error e) := by
  constructor
  · exact (c10_zero_column_relation [114] [114] 1
      [([114], ([] : List (Datatype (List Nat))))] rfl rfl).1 rfl
  · exact (c10_zero_column_relation [114, 32] [114] 1
      [([114], ([] : List (Datatype (List Nat))))] rfl rfl).2 (by decide)

/-- Claim C3: for every schema and every successful `parse_db` call, the
returned mapping has exactly the schema's declared relation names as keys
(in schema order; a relation with zero data lines maps to the empty list
and no undeclared relation ever appears — an undeclared relation could
only enter through the `KeyError` path, which is not a success), and each
relation's list holds exactly its decoded rows in the order their lines
occur in the body. -/
theorem c3_parse_db_keys_and_rows {V : Type} (lines : List (List Nat))
    (schemastring : Option (List Nat))
    (schema_grammar : List Nat → Except Err (List (List Nat)))
    (make_dtr : List (List Nat) → List (List Nat × List (Datatype V)))
    (rels : List (List Nat)) (d : List (List Nat × List (List V)))
    (hnd : rels.Nodup)
    (h : parse_db lines schemastring schema_grammar make_dtr = .ok (rels, d)) :
    d.map Prod.fst = rels ∧
    ∀ r ∈ rels, dictGet d r
        = some (rowsForRel (make_dtr rels) (bodyLines lines schemastring) r) := by
  have hinit : rels.foldl (fun d2 r => dictSet d2 r []) []
      = rels.map (fun x => (x, ([] : List (List V)))) := by
    have := foldl_dictSet_pairs ([] : List (List V)) rels [] hnd
      (by intro r hr; simp)
    simpa using this
  have core : ∀ (body : List (List Nat)),
      db_loop (make_dtr rels) (rels.foldl (fun d2 r => dictSet d2 r []) []) body = .ok d →
      d.map Prod.fst = rels ∧
      ∀ r ∈ rels, dictGet d r = some (rowsForRel (make_dtr rels) body r) := by
    intro body hdb
    have hd := db_loop_ok (make_dtr rels) body _ d hdb
    constructor
    · rw [hd.1, hinit, List.map_map]
      have hcomp : (Prod.fst ∘ fun x : List Nat => (x, ([] : List (List V)))) = id := rfl
      rw [hcomp, List.map_id]
    · intro r hr
      rw [hd.2 r, hinit, dictGet_pairs_mem rels _ hr]
      simp
  cases schemastring with
  | some ss =>
    simp only [parse_db] at h
    cases hps : schema_grammar ss with
    | error e => simp only [hps] at h; cases h
    | ok relations =>
      simp only [hps] at h
      cases hdb : db_loop (make_dtr relations)
          (relations.foldl (fun d2 r => dictSet d2 r []) [])
          (aheadList (mkAhead lines)) with
      | error e => simp only [hdb] at h; cases h
      | ok dd =>
        simp only [hdb, Except.ok.injEq, Prod.mk.injEq] at h
        obtain ⟨hrels, hdd⟩ := h
        subst hrels
        subst hdd
        exact core lines hdb
  | none =>
    simp only [parse_db] at h
    cases hps : schema_grammar (split_header (mkAhead lines)).1 with
    | error e => simp only [hps] at h; cases h
    | ok relations =>
      simp only [hps] at h
      cases hdb : db_loop (make_dtr relations)
          (relations.foldl (fun d2 r => dictSet d2 r []) [])
          (aheadList (split_header (mkAhead lines)).2) with
      | error e => simp only [hdb] at h; cases h
      | ok dd =>
        simp only [hdb, Except.ok.injEq, Prod.mk.injEq] at h
        obtain ⟨hrels, hdd⟩ := h
        subst hrels
        subst hdd
        exact core (aheadList (split_header (mkAhead lines)).2) hdb

/-- Witness for claim C3: an inline-header database — header `%x`, rows
`r a` and `r b` with a blank line between, schema relations `r` and `s`
(`s` having no rows) — hypotheses discharged and conclusions instantiated. -/
theorem c3_witness :
    ([[114], [115]] : List (List Nat)).Nodup ∧
    parse_db [[37, 120], [114, 32, 97], [], [114, 32, 98]] none
        (fun _ => .ok [[114], [115]])
        (fun _ => [([114], [idAtom]), ([115], [])])
      = .ok ([[114], [115]], [([114], [[[97]], [[98]]]), ([115], [])]) ∧
    (([([114], [[[97]], [[98]]]), ([115], [])]
          : List (List Nat × List (List (List Nat)))).map Prod.fst
        = [[114], [115]] ∧
      ∀ r ∈ ([[114], [115]] : List (List Nat)),
        dictGet [([114], [[[97]], [[98]]]), ([115], [])] r
          = some (rowsForRel ((fun _ => [([114], [idAtom]), ([115], [])]) [[114], [115]])
              (bodyLines [[37, 120], [114, 32, 97], [], [114, 32, 98]] none) r)) :=
  ⟨by decide, rfl,
    c3_parse_db_keys_and_rows [[37, 120], [114, 32, 97], [], [114, 32, 98]] none
      (fun _ => .ok [[114], [115]])
      (fun _ => [([114], [idAtom]), ([115], [])])
      [[114], [115]] [([114], [[[97]], [[98]]]), ([115], [])]
      (by decide) rfl⟩
